import Mathlib

set_option maxRecDepth 100000
set_option maxHeartbeats 2000000

/-!
# GreenProof backend — canonicalization, proof derivation and attestation

A shallow embedding of the core of the GreenProof backend (`main.py`,
`schemas.py`): the canonical JSON encoder used for hashing, the SHA-256
based proof derivation (`action_proof_hash` and the `tx_id` derivation in
`attest_action`), and the attestation state transition over the document
store, together with proofs of the specified properties.

Machine integers are modelled as `Nat` with explicit reduction modulo
`2^32` where 32-bit overflow matters; bytes are `Nat` values below 256;
Python strings are Lean `String`s.  The MongoDB collaborator (`find_one`,
`insert_one`, `update_one` on the two collections) is modelled as explicit
state passing over association lists in insertion order.
-/

namespace GreenProof

/-! ## SHA-256 (the `hashlib.sha256` collaborator), over lists of bytes -/

/-- 32-bit right rotation on a word `x < 2^32`. -/
def rotRight32 (n x : Nat) : Nat := (x >>> n) ||| ((x <<< (32 - n)) % 4294967296)

/-- SHA-256 small sigma 0. -/
def schedSigma0 (x : Nat) : Nat := rotRight32 7 x ^^^ rotRight32 18 x ^^^ (x >>> 3)

/-- SHA-256 small sigma 1. -/
def schedSigma1 (x : Nat) : Nat := rotRight32 17 x ^^^ rotRight32 19 x ^^^ (x >>> 10)

/-- SHA-256 big sigma 0. -/
def roundSigma0 (x : Nat) : Nat := rotRight32 2 x ^^^ rotRight32 13 x ^^^ rotRight32 22 x

/-- SHA-256 big sigma 1. -/
def roundSigma1 (x : Nat) : Nat := rotRight32 6 x ^^^ rotRight32 11 x ^^^ rotRight32 25 x

/-- The 64 SHA-256 round constants (FIPS 180-4), written in decimal. -/
def sha256K : List Nat :=
  [1116352408, 1899447441, 3049323471, 3921009573, 961987163, 1508970993,
   2453635748, 2870763221, 3624381080, 310598401, 607225278, 1426881987,
   1925078388, 2162078206, 2614888103, 3248222580, 3835390401, 4022224774,
   264347078, 604807628, 770255983, 1249150122, 1555081692, 1996064986,
   2554220882, 2821834349, 2952996808, 3210313671, 3336571891, 3584528711,
   113926993, 338241895, 666307205, 773529912, 1294757372, 1396182291,
   1695183700, 1986661051, 2177026350, 2456956037, 2730485921, 2820302411,
   3259730800, 3345764771, 3516065817, 3600352804, 4094571909, 275423344,
   430227734, 506948616, 659060556, 883997877, 958139571, 1322822218,
   1537002063, 1747873779, 1955562222, 2024104815, 2227730452, 2361852424,
   2428436474, 2756734187, 3204031479, 3329325298]

/-- The SHA-256 initial hash value (FIPS 180-4), written in decimal. -/
def sha256H0 : List Nat :=
  [1779033703, 3144134277, 1013904242, 2773480762,
   1359893119, 2600822924, 528734635, 1541459225]

/-- Extend a 16-word block to the 64-word message schedule. -/
def sha256Schedule (ws : List Nat) : List Nat :=
  (List.range 48).foldl
    (fun acc _ =>
      let n := acc.length
      let w := (schedSigma1 (acc.getD (n - 2) 0) + acc.getD (n - 7) 0 +
                schedSigma0 (acc.getD (n - 15) 0) + acc.getD (n - 16) 0) % 4294967296
      acc ++ [w]) ws

/-- One SHA-256 round on the working state, with round constant `k` and
schedule word `w`. -/
def sha256Round (st : Nat × Nat × Nat × Nat × Nat × Nat × Nat × Nat) (kw : Nat × Nat) :
    Nat × Nat × Nat × Nat × Nat × Nat × Nat × Nat :=
  let (a, b, c, d, e, f, g, h) := st
  let ch := (e &&& f) ^^^ ((e ^^^ 4294967295) &&& g)
  let maj := (a &&& b) ^^^ (a &&& c) ^^^ (b &&& c)
  let t1 := (h + roundSigma1 e + ch + kw.1 + kw.2) % 4294967296
  let t2 := (roundSigma0 a + maj) % 4294967296
  ((t1 + t2) % 4294967296, a, b, c, (d + t1) % 4294967296, e, f, g)

/-- Compress one 16-word block into the running 8-word hash state. -/
def sha256Compress (h : List Nat) (block : List Nat) : List Nat :=
  let w := sha256Schedule block
  let a0 := h.getD 0 0
  let b0 := h.getD 1 0
  let c0 := h.getD 2 0
  let d0 := h.getD 3 0
  let e0 := h.getD 4 0
  let f0 := h.getD 5 0
  let g0 := h.getD 6 0
  let h0 := h.getD 7 0
  let fin := (sha256K.zip w).foldl sha256Round (a0, b0, c0, d0, e0, f0, g0, h0)
  [(a0 + fin.1) % 4294967296, (b0 + fin.2.1) % 4294967296,
   (c0 + fin.2.2.1) % 4294967296, (d0 + fin.2.2.2.1) % 4294967296,
   (e0 + fin.2.2.2.2.1) % 4294967296, (f0 + fin.2.2.2.2.2.1) % 4294967296,
   (g0 + fin.2.2.2.2.2.2.1) % 4294967296, (h0 + fin.2.2.2.2.2.2.2) % 4294967296]

/-- Pack big-endian bytes into 32-bit words, four at a time. -/
def toWords : List Nat → List Nat
  | a :: b :: c :: d :: rest => (((a * 256 + b) * 256 + c) * 256 + d) :: toWords rest
  | _ => []

/-- Fold the word stream through the compression function, one 16-word
block at a time. -/
def sha256Blocks (h : List Nat) : List Nat → List Nat
  | w0 :: w1 :: w2 :: w3 :: w4 :: w5 :: w6 :: w7 ::
    w8 :: w9 :: w10 :: w11 :: w12 :: w13 :: w14 :: w15 :: rest =>
      sha256Blocks
        (sha256Compress h [w0, w1, w2, w3, w4, w5, w6, w7, w8, w9, w10, w11, w12, w13, w14, w15])
        rest
  | _ => h

/-- SHA-256 padding: append `0x80`, zero bytes to 56 mod 64, then the
message bit length as eight big-endian bytes. -/
def sha256Pad (msg : List Nat) : List Nat :=
  let len := msg.length
  let zeros := (120 - (len + 1) % 64) % 64
  let bitlen := len * 8
  msg ++ [0x80] ++ List.replicate zeros 0 ++
    [(bitlen >>> 56) &&& 255, (bitlen >>> 48) &&& 255, (bitlen >>> 40) &&& 255,
     (bitlen >>> 32) &&& 255, (bitlen >>> 24) &&& 255, (bitlen >>> 16) &&& 255,
     (bitlen >>> 8) &&& 255, bitlen &&& 255]

/-- The SHA-256 digest of a byte list, as a list of 32 bytes. -/
def sha256 (msg : List Nat) : List Nat :=
  (sha256Blocks sha256H0 (toWords (sha256Pad msg))).flatMap
    (fun w => [(w >>> 24) &&& 255, (w >>> 16) &&& 255, (w >>> 8) &&& 255, w &&& 255])

/-! ## Hex encoding (Python `bytes.hex` / `hexdigest`) -/

/-- The lowercase hex digit for a value below 16. -/
def hexChar (n : Nat) : Char :=
  if n < 10 then Char.ofNat (48 + n) else Char.ofNat (87 + n)

/-- The two lowercase hex digits of one byte. -/
def byteHex (b : Nat) : List Char := [hexChar (b / 16 % 16), hexChar (b % 16)]

/-- `hexdigest`: the digest bytes rendered as lowercase hex. -/
def sha256hex (msg : List Nat) : String := ⟨(sha256 msg).flatMap byteHex⟩

/-! ## UTF-8 encoding (Python `str.encode("utf-8")`) -/

/-- The UTF-8 bytes of one code point (lead byte plus base-64 digits with
the continuation marker `0x80`). -/
def charUtf8 (c : Char) : List Nat :=
  let n := c.toNat
  if n < 0x80 then [n]
  else if n < 0x800 then [0xC0 + n / 64, 0x80 + n % 64]
  else if n < 0x10000 then [0xE0 + n / 4096, 0x80 + n / 64 % 64, 0x80 + n % 64]
  else [0xF0 + n / 0x40000, 0x80 + n / 4096 % 64, 0x80 + n / 64 % 64, 0x80 + n % 64]

/-- The UTF-8 encoding of a string. -/
def utf8Encode (s : String) : List Nat := s.data.flatMap charUtf8

/-! ## Canonical JSON encoding (`json.dumps(payload, sort_keys=True, separators=(",", ":"))`)

Python's `json.dumps` with its default `ensure_ascii=True` escapes `"`,
`\`, every control character below `0x20` (with the short forms
`\b \t \n \f \r`), and every non-ASCII character (code points above
`0xFFFF` as a surrogate pair); all other ASCII characters stand for
themselves. -/

/-- The four hex digits of a value below `0x10000`. -/
def hex4 (n : Nat) : List Char :=
  [hexChar (n / 4096 % 16), hexChar (n / 256 % 16), hexChar (n / 16 % 16), hexChar (n % 16)]

/-- The `json.dumps` (`ensure_ascii=True`) escape of one character. -/
def jsonEscapeChar (c : Char) : List Char :=
  if c = '"' then ['\\', '"']
  else if c = '\\' then ['\\', '\\']
  else if c.toNat = 8 then ['\\', 'b']
  else if c.toNat = 9 then ['\\', 't']
  else if c.toNat = 10 then ['\\', 'n']
  else if c.toNat = 12 then ['\\', 'f']
  else if c.toNat = 13 then ['\\', 'r']
  else if c.toNat < 32 then '\\' :: 'u' :: hex4 c.toNat
  else if c.toNat < 127 then [c]
  else if c.toNat < 0x10000 then '\\' :: 'u' :: hex4 c.toNat
  else
    ('\\' :: 'u' :: hex4 (0xD800 + (c.toNat - 0x10000) / 0x400)) ++
    ('\\' :: 'u' :: hex4 (0xDC00 + (c.toNat - 0x10000) % 0x400))

/-- The characters of the JSON string literal for `s`: a quoted, escaped
rendering. -/
def jsonStringChars (s : String) : List Char :=
  '"' :: s.data.flatMap jsonEscapeChar ++ ['"']

/-- The JSON rendering of an optional string field value: `null` when
absent, a JSON string literal otherwise. -/
def jsonOptChars : Option String → List Char
  | none => ['n', 'u', 'l', 'l']
  | some s => jsonStringChars s

/-! ## Data model (`schemas.py`) -/

/-- The `ImpactAction` document (`schemas.py`).  `category` is one of the
closed `Literal` set, carried as its string value.  `quantity` is a Python
float; it enters hashing only through the token `json.dumps` emits for it
(`repr`, the shortest round-tripping decimal, which distinguishes distinct
float values), so it is carried as that decimal token.  Timestamps are
opaque clock values. -/
structure ImpactAction where
  actor : String
  title : String
  description : Option String
  category : String
  quantity : String
  unit : String
  location : Option String
  evidence_url : Option String
  attested : Bool
  proof_hash : Option String
  tx_id : Option String
  created_at : Option Nat
  updated_at : Option Nat
  deriving Repr, DecidableEq

/-- The characters of
`json.dumps(action.model_dump(exclude={"attested", "proof_hash", "tx_id",
"created_at", "updated_at"}), sort_keys=True, separators=(",", ":"))`:
the eight content fields, keys in sorted order, compact separators. -/
def canonicalChars (a : ImpactAction) : List Char :=
  ('{' :: jsonStringChars "actor") ++ (':' :: jsonStringChars a.actor) ++
  (',' :: jsonStringChars "category") ++ (':' :: jsonStringChars a.category) ++
  (',' :: jsonStringChars "description") ++ (':' :: jsonOptChars a.description) ++
  (',' :: jsonStringChars "evidence_url") ++ (':' :: jsonOptChars a.evidence_url) ++
  (',' :: jsonStringChars "location") ++ (':' :: jsonOptChars a.location) ++
  (',' :: jsonStringChars "quantity") ++ (':' :: a.quantity.data) ++
  (',' :: jsonStringChars "title") ++ (':' :: jsonStringChars a.title) ++
  (',' :: jsonStringChars "unit") ++ (':' :: jsonStringChars a.unit) ++ ['}']

/-- The canonical JSON text of an action's content fields, as a string. -/
def canonicalString (a : ImpactAction) : String := ⟨canonicalChars a⟩

/-! ## Proof derivation (`action_proof_hash` and the `tx_id` line of
`attest_action`, main.py lines 25–28 and 128) -/

/-- `action_proof_hash(action, salt)`: SHA-256 hex digest of the UTF-8
bytes of the canonical JSON text with the salt appended (`salt or ""`,
so an absent salt contributes the empty string). -/
def action_proof_hash (a : ImpactAction) (salt : Option String) : String :=
  sha256hex (utf8Encode (canonicalString a ++ salt.getD ""))

/-- The `tx_id` derivation:
`hashlib.sha256((phash + "|tx").encode()).hexdigest()[:32]`. -/
def txIdOf (phash : String) : String :=
  (sha256hex (utf8Encode (phash ++ "|tx"))).take 32

/-- `derive(action, salt?)`: the `(proof_hash, tx_id)` pair computed in
`attest_action` (main.py lines 127–128). -/
def derive (a : ImpactAction) (salt : Option String) : String × String :=
  let phash := action_proof_hash a salt
  (phash, txIdOf phash)

/-! ## The attestation state transition (`attest_action`, main.py lines 99–150)

The MongoDB collaborator is modelled explicitly: the `impactaction`
collection as an association list from document id to document, in
insertion order, and the `proof` collection as a list of proof documents
in insertion order.  `find_one({"_id": ...})` and
`update_one({"_id": ...})` address the first document with the given id;
`insert_one` appends.  `bson.ObjectId(action_id)` accepts exactly a
24-character hexadecimal string and raises otherwise; the handler's
`try`/`except` turns that raise into the same "not found" outcome
(main.py lines 105–110). -/

/-- The request body of `POST /actions/{action_id}/attest`
(`CreateProofRequest`, minus the unused `action_id` echo). -/
structure CreateProofRequest where
  salt : Option String
  signer_address : Option String
  signature : Option String
  chain_id : Option Int
  deriving Repr, DecidableEq

/-- A document of the `proof` collection, as `attest_action` inserts it. -/
structure ProofDoc where
  action_id : String
  proof_hash : String
  tx_id : String
  network : String
  signer_address : Option String
  signature : Option String
  chain_id : Option Int
  created_at : Nat
  updated_at : Nat
  deriving Repr, DecidableEq

/-- The document store: the two collections the handler touches. -/
structure Store where
  impactaction : List (String × ImpactAction)
  proof : List ProofDoc
  deriving Repr, DecidableEq

/-- Whether a string parses as a `bson.ObjectId`: exactly 24 hex digits. -/
def isValidObjectId (s : String) : Bool :=
  s.data.length == 24 &&
    s.data.all (fun c => c.isDigit || ('a' ≤ c && c ≤ 'f') || ('A' ≤ c && c ≤ 'F'))

/-- `db["impactaction"].find_one({"_id": ObjectId(action_id)})`, with the
surrounding `try`/`except` that maps an unparsable id to `None`. -/
def findAction (st : Store) (action_id : String) : Option ImpactAction :=
  if isValidObjectId action_id then
    (st.impactaction.find? (fun kv => kv.1 == action_id)).map (fun kv => kv.2)
  else none

/-- `update_one({"_id": ...}, {"$set": ...})`: replace the first document
with the given id, leaving everything else in place. -/
def setAction : List (String × ImpactAction) → String → ImpactAction →
    List (String × ImpactAction)
  | [], _, _ => []
  | (k, v) :: rest, id, d =>
      if k == id then (k, d) :: rest else (k, v) :: setAction rest id d

/-- Rebuilding the Pydantic model from the raw document for hashing
(main.py lines 113–125): the content and attestation fields are copied
through, `created_at`/`updated_at` are left at their `None` default. -/
def rebuildModel (raw : ImpactAction) : ImpactAction :=
  { raw with created_at := none, updated_at := none }

/-- The error outcomes of the attest handler. -/
inductive AttestError where
  | notFound
  deriving Repr, DecidableEq

/-- `attest_action` (main.py lines 99–150): look the action up (a
malformed or absent id gives 404 and leaves the store untouched), derive
`(proof_hash, tx_id)` from the current content and the salt, insert a
`proof` document, and mark the action attested with the derived values;
`now` is the single `datetime.now` timestamp the handler takes. -/
def attest_action (st : Store) (action_id : String) (body : CreateProofRequest)
    (now : Nat) : Store × Except AttestError (String × String) :=
  match findAction st action_id with
  | none => (st, Except.error AttestError.notFound)
  | some raw =>
      let action := rebuildModel raw
      let phash := action_proof_hash action body.salt
      let tx_id := txIdOf phash
      let proof_doc : ProofDoc :=
        { action_id := action_id, proof_hash := phash, tx_id := tx_id,
          network := "sim-chain", signer_address := body.signer_address,
          signature := body.signature, chain_id := body.chain_id,
          created_at := now, updated_at := now }
      let updated :=
        { raw with attested := true, proof_hash := some phash,
                   tx_id := some tx_id, updated_at := some now }
      ({ impactaction := setAction st.impactaction action_id updated,
         proof := st.proof ++ [proof_doc] },
       Except.ok (phash, tx_id))

/-! ## Derived notions used by the statements -/

/-- The exact byte sequence fed to SHA-256 by `action_proof_hash`: the
UTF-8 bytes of the canonical JSON text with the salt appended. -/
def hashInput (a : ImpactAction) (salt : Option String) : List Nat :=
  utf8Encode (canonicalString a ++ salt.getD "")

/-- A lowercase hexadecimal digit. -/
def isLowerHex (c : Char) : Bool :=
  ('0' ≤ c && c ≤ '9') || ('a' ≤ c && c ≤ 'f')

/-- The JSON string literal for `s`, as a string. -/
def jsonString (s : String) : String := ⟨jsonStringChars s⟩

/-- The JSON rendering of an optional string field, as a string. -/
def jsonOpt (o : Option String) : String := ⟨jsonOptChars o⟩

/-- The key/value rendering of the eight content fields, in the order the
canonical encoder emits them (keys sorted by name). -/
def canonicalFields (a : ImpactAction) : List (String × String) :=
  [("actor", jsonString a.actor),
   ("category", jsonString a.category),
   ("description", jsonOpt a.description),
   ("evidence_url", jsonOpt a.evidence_url),
   ("location", jsonOpt a.location),
   ("quantity", a.quantity),
   ("title", jsonString a.title),
   ("unit", jsonString a.unit)]

/-- Strict lexicographic order on character lists, by code point. -/
def strLtB : List Char → List Char → Bool
  | [], [] => false
  | [], _ :: _ => true
  | _ :: _, [] => false
  | c :: cs, d :: ds =>
      if c.toNat < d.toNat then true
      else if c.toNat = d.toNat then strLtB cs ds
      else false

/-- Whether adjacent strings in a list are in strictly increasing
lexicographic order. -/
def chainLtB : List String → Bool
  | a :: b :: rest => strLtB a.data b.data && chainLtB (b :: rest)
  | _ => true

/-- Everything the canonical encoding emits before the value of the
`description` field. -/
def descBefore (a : ImpactAction) : List Char :=
  ('{' :: jsonStringChars "actor") ++ (':' :: jsonStringChars a.actor) ++
  (',' :: jsonStringChars "category") ++ (':' :: jsonStringChars a.category) ++
  (',' :: jsonStringChars "description") ++ [':']

/-- Everything the canonical encoding emits after the value of the
`description` field. -/
def descAfter (a : ImpactAction) : List Char :=
  (',' :: jsonStringChars "evidence_url") ++ (':' :: jsonOptChars a.evidence_url) ++
  (',' :: jsonStringChars "location") ++ (':' :: jsonOptChars a.location) ++
  (',' :: jsonStringChars "quantity") ++ (':' :: a.quantity.data) ++
  (',' :: jsonStringChars "title") ++ (':' :: jsonStringChars a.title) ++
  (',' :: jsonStringChars "unit") ++ (':' :: jsonStringChars a.unit) ++ ['}']

/-! ## Decoders (proof machinery: left inverses of the encoders, used to
establish injectivity of the escape and UTF-8 encodings) -/

/-- The value of a lowercase hex digit. -/
def hexVal (c : Char) : Nat :=
  if c.toNat ≤ 57 then c.toNat - 48 else c.toNat - 87

/-- Read one escaped chunk off the front of an escaped character stream:
the inverse of one `jsonEscapeChar` step. -/
def readChunk : List Char → Option (Char × List Char)
  | [] => none
  | c :: rest =>
    if c = '\\' then
      match rest with
      | [] => none
      | e :: r =>
        if e = '"' then some ('"', r)
        else if e = '\\' then some ('\\', r)
        else if e = 'b' then some (Char.ofNat 8, r)
        else if e = 't' then some (Char.ofNat 9, r)
        else if e = 'n' then some (Char.ofNat 10, r)
        else if e = 'f' then some (Char.ofNat 12, r)
        else if e = 'r' then some (Char.ofNat 13, r)
        else if e = 'u' then
          match r with
          | a :: b :: c2 :: d :: r2 =>
            let v := hexVal a * 4096 + hexVal b * 256 + hexVal c2 * 16 + hexVal d
            if 0xD800 ≤ v ∧ v < 0xDC00 then
              match r2 with
              | q1 :: q2 :: e1 :: f1 :: g1 :: h1 :: r3 =>
                if q1 = '\\' then
                  if q2 = 'u' then
                    let w := hexVal e1 * 4096 + hexVal f1 * 256 + hexVal g1 * 16 + hexVal h1
                    some (Char.ofNat ((v - 0xD800) * 0x400 + (w - 0xDC00) + 0x10000), r3)
                  else none
                else none
              | _ => none
            else some (Char.ofNat v, r2)
          | _ => none
        else none
    else some (c, rest)

/-- Read one UTF-8 chunk off the front of a byte stream: the inverse of
one `charUtf8` step. -/
def readUtf8 : List Nat → Option (Char × List Nat)
  | [] => none
  | b :: rest =>
    if b < 0x80 then some (Char.ofNat b, rest)
    else if b < 0xE0 then
      match rest with
      | b2 :: r => some (Char.ofNat ((b - 0xC0) * 64 + (b2 - 0x80)), r)
      | _ => none
    else if b < 0xF0 then
      match rest with
      | b2 :: b3 :: r =>
          some (Char.ofNat ((b - 0xE0) * 4096 + (b2 - 0x80) * 64 + (b3 - 0x80)), r)
      | _ => none
    else
      match rest with
      | b2 :: b3 :: b4 :: r =>
          some (Char.ofNat ((b - 0xF0) * 0x40000 + (b2 - 0x80) * 4096 +
                            (b3 - 0x80) * 64 + (b4 - 0x80)), r)
      | _ => none

/-- Run a chunk reader to exhaustion, consuming one chunk per unit of
fuel. -/
def decodeAux {α β : Type} (read : List α → Option (β × List α)) :
    Nat → List α → Option (List β)
  | _, [] => some []
  | 0, _ :: _ => none
  | fuel + 1, x :: xs =>
      match read (x :: xs) with
      | some (c, rest) => (decodeAux read fuel rest).map (fun t => c :: t)
      | none => none

/-! ## Concrete fixtures (the worked example of the specification, §8.6) -/

/-- The example action of the specification's end-to-end scenario. -/
def exAction : ImpactAction :=
  { actor := "Test User", title := "Solar generation", description := none,
    category := "renewables", quantity := "12.5", unit := "kWh",
    location := none, evidence_url := none, attested := false,
    proof_hash := none, tx_id := none, created_at := none, updated_at := none }

/-- The example action with only `quantity` changed, 12.5 to 12.6. -/
def exActionQ : ImpactAction := { exAction with quantity := "12.6" }

/-- The example action with `description` set to the literal text "null". -/
def exActionNullText : ImpactAction := { exAction with description := some "null" }

/-- A well-formed MongoDB object id for the example action. -/
def exId : String := "507f1f77bcf86cd799439011"

/-- A store holding exactly the example action, no proofs yet. -/
def exStore : Store := { impactaction := [(exId, exAction)], proof := [] }

/-- The example action marked as already attested, with some prior
proof fields on record. -/
def exActionAttested : ImpactAction :=
  { exAction with
      attested := true,
      proof_hash := some "deadbeef",
      tx_id := some "beef" }

/-- A store whose only action is already attested. -/
def exStoreAttested : Store :=
  { impactaction := [(exId, exActionAttested)], proof := [] }

/-- An attest request carrying no salt and no signer metadata. -/
def exBody : CreateProofRequest :=
  { salt := none, signer_address := none, signature := none, chain_id := none }

/-! ## Hex digit facts -/

theorem hexVal_hexChar : ∀ n < 16, hexVal (hexChar n) = n := by decide

theorem hexChar_isLowerHex : ∀ n < 16, isLowerHex (hexChar n) = true := by decide

/-! ## The escape encoding, case by case -/

theorem jsonEscapeChar_quote : jsonEscapeChar '"' = ['\\', '"'] := rfl

theorem jsonEscapeChar_backslash : jsonEscapeChar '\\' = ['\\', '\\'] := rfl

theorem jsonEscapeChar_b {c : Char} (h : c.toNat = 8) :
    jsonEscapeChar c = ['\\', 'b'] := by
  have h1 : c ≠ '"' := fun he => absurd (he ▸ h) (by decide)
  have h2 : c ≠ '\\' := fun he => absurd (he ▸ h) (by decide)
  simp only [jsonEscapeChar, if_neg h1, if_neg h2, if_pos h]

theorem jsonEscapeChar_t {c : Char} (h : c.toNat = 9) :
    jsonEscapeChar c = ['\\', 't'] := by
  have h1 : c ≠ '"' := fun he => absurd (he ▸ h) (by decide)
  have h2 : c ≠ '\\' := fun he => absurd (he ▸ h) (by decide)
  simp only [jsonEscapeChar, if_neg h1, if_neg h2, if_neg (by omega : ¬ c.toNat = 8),
    if_pos h]

theorem jsonEscapeChar_n {c : Char} (h : c.toNat = 10) :
    jsonEscapeChar c = ['\\', 'n'] := by
  have h1 : c ≠ '"' := fun he => absurd (he ▸ h) (by decide)
  have h2 : c ≠ '\\' := fun he => absurd (he ▸ h) (by decide)
  simp only [jsonEscapeChar, if_neg h1, if_neg h2, if_neg (by omega : ¬ c.toNat = 8),
    if_neg (by omega : ¬ c.toNat = 9), if_pos h]

theorem jsonEscapeChar_f {c : Char} (h : c.toNat = 12) :
    jsonEscapeChar c = ['\\', 'f'] := by
  have h1 : c ≠ '"' := fun he => absurd (he ▸ h) (by decide)
  have h2 : c ≠ '\\' := fun he => absurd (he ▸ h) (by decide)
  simp only [jsonEscapeChar, if_neg h1, if_neg h2, if_neg (by omega : ¬ c.toNat = 8),
    if_neg (by omega : ¬ c.toNat = 9), if_neg (by omega : ¬ c.toNat = 10), if_pos h]

theorem jsonEscapeChar_r {c : Char} (h : c.toNat = 13) :
    jsonEscapeChar c = ['\\', 'r'] := by
  have h1 : c ≠ '"' := fun he => absurd (he ▸ h) (by decide)
  have h2 : c ≠ '\\' := fun he => absurd (he ▸ h) (by decide)
  simp only [jsonEscapeChar, if_neg h1, if_neg h2, if_neg (by omega : ¬ c.toNat = 8),
    if_neg (by omega : ¬ c.toNat = 9), if_neg (by omega : ¬ c.toNat = 10),
    if_neg (by omega : ¬ c.toNat = 12), if_pos h]

theorem jsonEscapeChar_ctrl {c : Char} (h : c.toNat < 32)
    (h8 : c.toNat ≠ 8) (h9 : c.toNat ≠ 9) (h10 : c.toNat ≠ 10)
    (h12 : c.toNat ≠ 12) (h13 : c.toNat ≠ 13) :
    jsonEscapeChar c = '\\' :: 'u' :: hex4 c.toNat := by
  have h1 : c ≠ '"' := fun he => absurd (he ▸ h) (by decide)
  have h2 : c ≠ '\\' := fun he => absurd (he ▸ h) (by decide)
  simp only [jsonEscapeChar, if_neg h1, if_neg h2, if_neg h8, if_neg h9, if_neg h10,
    if_neg h12, if_neg h13, if_pos h]

theorem jsonEscapeChar_plain {c : Char} (hlo : 32 ≤ c.toNat) (hhi : c.toNat < 127)
    (h1 : c ≠ '"') (h2 : c ≠ '\\') :
    jsonEscapeChar c = [c] := by
  simp only [jsonEscapeChar, if_neg h1, if_neg h2,
    if_neg (by omega : ¬ c.toNat = 8), if_neg (by omega : ¬ c.toNat = 9),
    if_neg (by omega : ¬ c.toNat = 10), if_neg (by omega : ¬ c.toNat = 12),
    if_neg (by omega : ¬ c.toNat = 13), if_neg (by omega : ¬ c.toNat < 32), if_pos hhi]

theorem jsonEscapeChar_bmp {c : Char} (hlo : 127 ≤ c.toNat) (hhi : c.toNat < 0x10000) :
    jsonEscapeChar c = '\\' :: 'u' :: hex4 c.toNat := by
  have h1 : c ≠ '"' := fun he => absurd (he ▸ hlo) (by decide)
  have h2 : c ≠ '\\' := fun he => absurd (he ▸ hlo) (by decide)
  simp only [jsonEscapeChar, if_neg h1, if_neg h2,
    if_neg (by omega : ¬ c.toNat = 8), if_neg (by omega : ¬ c.toNat = 9),
    if_neg (by omega : ¬ c.toNat = 10), if_neg (by omega : ¬ c.toNat = 12),
    if_neg (by omega : ¬ c.toNat = 13), if_neg (by omega : ¬ c.toNat < 32),
    if_neg (by omega : ¬ c.toNat < 127), if_pos hhi]

theorem jsonEscapeChar_astral {c : Char} (hlo : 0x10000 ≤ c.toNat) :
    jsonEscapeChar c =
      ('\\' :: 'u' :: hex4 (0xD800 + (c.toNat - 0x10000) / 0x400)) ++
      ('\\' :: 'u' :: hex4 (0xDC00 + (c.toNat - 0x10000) % 0x400)) := by
  have h1 : c ≠ '"' := fun he => absurd (he ▸ hlo) (by decide)
  have h2 : c ≠ '\\' := fun he => absurd (he ▸ hlo) (by decide)
  simp only [jsonEscapeChar, if_neg h1, if_neg h2,
    if_neg (by omega : ¬ c.toNat = 8), if_neg (by omega : ¬ c.toNat = 9),
    if_neg (by omega : ¬ c.toNat = 10), if_neg (by omega : ¬ c.toNat = 12),
    if_neg (by omega : ¬ c.toNat = 13), if_neg (by omega : ¬ c.toNat < 32),
    if_neg (by omega : ¬ c.toNat < 127), if_neg (by omega : ¬ c.toNat < 0x10000)]

/-! ## Reading one escaped chunk -/

theorem readChunk_quote (L : List Char) : readChunk ('\\' :: '"' :: L) = some ('"', L) := rfl

theorem readChunk_backslash (L : List Char) :
    readChunk ('\\' :: '\\' :: L) = some ('\\', L) := rfl

theorem readChunk_b (L : List Char) :
    readChunk ('\\' :: 'b' :: L) = some (Char.ofNat 8, L) := rfl

theorem readChunk_t (L : List Char) :
    readChunk ('\\' :: 't' :: L) = some (Char.ofNat 9, L) := rfl

theorem readChunk_n (L : List Char) :
    readChunk ('\\' :: 'n' :: L) = some (Char.ofNat 10, L) := rfl

theorem readChunk_f (L : List Char) :
    readChunk ('\\' :: 'f' :: L) = some (Char.ofNat 12, L) := rfl

theorem readChunk_r (L : List Char) :
    readChunk ('\\' :: 'r' :: L) = some (Char.ofNat 13, L) := rfl

theorem readChunk_plain {c : Char} (hc : ¬ c = '\\') (L : List Char) :
    readChunk (c :: L) = some (c, L) := by
  simp only [readChunk]
  rw [if_neg hc]

theorem readChunk_u (n : Nat) (L : List Char) (h1 : n < 0x10000)
    (h2 : ¬ (0xD800 ≤ n ∧ n < 0xDC00)) :
    readChunk ('\\' :: 'u' :: hex4 n ++ L) = some (Char.ofNat n, L) := by
  have e1 : hexVal (hexChar (n / 4096 % 16)) = n / 4096 % 16 := hexVal_hexChar _ (by omega)
  have e2 : hexVal (hexChar (n / 256 % 16)) = n / 256 % 16 := hexVal_hexChar _ (by omega)
  have e3 : hexVal (hexChar (n / 16 % 16)) = n / 16 % 16 := hexVal_hexChar _ (by omega)
  have e4 : hexVal (hexChar (n % 16)) = n % 16 := hexVal_hexChar _ (by omega)
  have hv : n / 4096 % 16 * 4096 + n / 256 % 16 * 256 + n / 16 % 16 * 16 + n % 16 = n := by
    omega
  simp only [hex4, List.cons_append, List.nil_append, readChunk]
  simp only [reduceIte, reduceCtorEq, Char.reduceEq, if_true]
  simp only [e1, e2, e3, e4, hv]
  rw [if_neg h2]

theorem readChunk_u2 (n : Nat) (L : List Char) (hlo : 0x10000 ≤ n) (hhi : n < 0x110000) :
    readChunk (('\\' :: 'u' :: hex4 (0xD800 + (n - 0x10000) / 0x400)) ++
               ('\\' :: 'u' :: hex4 (0xDC00 + (n - 0x10000) % 0x400)) ++ L) =
      some (Char.ofNat n, L) := by
  set v := 0xD800 + (n - 0x10000) / 0x400 with hvdef
  set w := 0xDC00 + (n - 0x10000) % 0x400 with hwdef
  have e1 : hexVal (hexChar (v / 4096 % 16)) = v / 4096 % 16 := hexVal_hexChar _ (by omega)
  have e2 : hexVal (hexChar (v / 256 % 16)) = v / 256 % 16 := hexVal_hexChar _ (by omega)
  have e3 : hexVal (hexChar (v / 16 % 16)) = v / 16 % 16 := hexVal_hexChar _ (by omega)
  have e4 : hexVal (hexChar (v % 16)) = v % 16 := hexVal_hexChar _ (by omega)
  have f1 : hexVal (hexChar (w / 4096 % 16)) = w / 4096 % 16 := hexVal_hexChar _ (by omega)
  have f2 : hexVal (hexChar (w / 256 % 16)) = w / 256 % 16 := hexVal_hexChar _ (by omega)
  have f3 : hexVal (hexChar (w / 16 % 16)) = w / 16 % 16 := hexVal_hexChar _ (by omega)
  have f4 : hexVal (hexChar (w % 16)) = w % 16 := hexVal_hexChar _ (by omega)
  have hvv : v / 4096 % 16 * 4096 + v / 256 % 16 * 256 + v / 16 % 16 * 16 + v % 16 = v := by
    omega
  have hww : w / 4096 % 16 * 4096 + w / 256 % 16 * 256 + w / 16 % 16 * 16 + w % 16 = w := by
    omega
  simp only [hex4, List.cons_append, List.nil_append, readChunk]
  simp only [reduceIte, reduceCtorEq, Char.reduceEq, if_true]
  simp only [e1, e2, e3, e4, f1, f2, f3, f4, hvv, hww]
  rw [if_pos (by omega)]
  have hn : (v - 0xD800) * 0x400 + (w - 0xDC00) + 0x10000 = n := by omega
  rw [hn]

/-- Reading a chunk undoes escaping: `readChunk` after `jsonEscapeChar`
returns the original character and leaves the rest untouched. -/
theorem readChunk_escape (c : Char) (L : List Char) :
    readChunk (jsonEscapeChar c ++ L) = some (c, L) := by
  by_cases hq : c = '"'
  · subst hq; rw [jsonEscapeChar_quote]; exact readChunk_quote L
  by_cases hb : c = '\\'
  · subst hb; rw [jsonEscapeChar_backslash]; exact readChunk_backslash L
  by_cases h8 : c.toNat = 8
  · rw [jsonEscapeChar_b h8, List.cons_append, List.cons_append, List.nil_append,
        readChunk_b, show Char.ofNat 8 = c from h8 ▸ (Char.ofNat_toNat c)]
  by_cases h9 : c.toNat = 9
  · rw [jsonEscapeChar_t h9, List.cons_append, List.cons_append, List.nil_append,
        readChunk_t, show Char.ofNat 9 = c from h9 ▸ (Char.ofNat_toNat c)]
  by_cases h10 : c.toNat = 10
  · rw [jsonEscapeChar_n h10, List.cons_append, List.cons_append, List.nil_append,
        readChunk_n, show Char.ofNat 10 = c from h10 ▸ (Char.ofNat_toNat c)]
  by_cases h12 : c.toNat = 12
  · rw [jsonEscapeChar_f h12, List.cons_append, List.cons_append, List.nil_append,
        readChunk_f, show Char.ofNat 12 = c from h12 ▸ (Char.ofNat_toNat c)]
  by_cases h13 : c.toNat = 13
  · rw [jsonEscapeChar_r h13, List.cons_append, List.cons_append, List.nil_append,
        readChunk_r, show Char.ofNat 13 = c from h13 ▸ (Char.ofNat_toNat c)]
  by_cases hc32 : c.toNat < 32
  · rw [jsonEscapeChar_ctrl hc32 h8 h9 h10 h12 h13,
        readChunk_u c.toNat L (by omega) (by omega), Char.ofNat_toNat]
  by_cases hc127 : c.toNat < 127
  · rw [jsonEscapeChar_plain (by omega) hc127 hq hb]
    exact readChunk_plain hb L
  have hvt : c.toNat = c.val.toNat := rfl
  by_cases hbmp : c.toNat < 0x10000
  · have hval := c.valid
    have hns : ¬ (0xD800 ≤ c.toNat ∧ c.toNat < 0xDC00) := by
      rcases hval with h | ⟨h1, h2⟩ <;> omega
    rw [jsonEscapeChar_bmp (by omega) hbmp, readChunk_u c.toNat L hbmp hns,
        Char.ofNat_toNat]
  · have hval := c.valid
    have hrange : 0x10000 ≤ c.toNat ∧ c.toNat < 0x110000 := by
      rcases hval with h | ⟨h1, h2⟩ <;> omega
    rw [jsonEscapeChar_astral hrange.1,
        readChunk_u2 c.toNat L hrange.1 hrange.2, Char.ofNat_toNat]

/-- An escaped character is never the empty chunk. -/
theorem jsonEscapeChar_ne_nil (c : Char) : jsonEscapeChar c ≠ [] := by
  intro h
  have h2 := readChunk_escape c []
  rw [h, List.nil_append] at h2
  exact Option.noConfusion h2

/-! ## The generic fuel decoder: roundtrip and injectivity -/

/-- Decoding undoes a concatenation of chunks, given enough fuel, whenever
the chunk reader undoes one encoding step and chunks are nonempty. -/
theorem decodeAux_flatMap {α β : Type} (read : List α → Option (β × List α))
    (enc : β → List α)
    (hread : ∀ (c : β) (L : List α), read (enc c ++ L) = some (c, L))
    (hne : ∀ c : β, enc c ≠ []) :
    ∀ (l : List β) (fuel : Nat), l.length ≤ fuel →
      decodeAux read fuel (l.flatMap enc) = some l := by
  intro l
  induction l with
  | nil =>
    intro fuel _
    cases fuel with
    | zero => rfl
    | succ f => rfl
  | cons c cs ih =>
    intro fuel hf
    cases fuel with
    | zero => exact absurd hf (by simp)
    | succ f =>
      rw [List.flatMap_cons]
      cases henc : enc c with
      | nil => exact absurd henc (hne c)
      | cons e es =>
        have hr : read (e :: (es ++ cs.flatMap enc)) = some (c, cs.flatMap enc) := by
          have h0 := hread c (cs.flatMap enc)
          rwa [henc, List.cons_append] at h0
        rw [List.cons_append, decodeAux, hr]
        have hlen : cs.length ≤ f := by simp at hf; omega
        show (decodeAux read f (cs.flatMap enc)).map (fun t => c :: t) = some (c :: cs)
        rw [ih f hlen]
        rfl

/-- A chunk encoding with a working chunk reader is injective on
concatenations. -/
theorem flatMap_enc_inj {α β : Type} (read : List α → Option (β × List α))
    (enc : β → List α)
    (hread : ∀ (c : β) (L : List α), read (enc c ++ L) = some (c, L))
    (hne : ∀ c : β, enc c ≠ []) {a b : List β}
    (h : a.flatMap enc = b.flatMap enc) : a = b := by
  have ha := decodeAux_flatMap read enc hread hne a (a.length + b.length) (by omega)
  have hb := decodeAux_flatMap read enc hread hne b (a.length + b.length) (by omega)
  rw [h, hb] at ha
  exact (Option.some.inj ha).symm

/-- Escaping is injective on character lists. -/
theorem flatMap_escape_inj {a b : List Char}
    (h : a.flatMap jsonEscapeChar = b.flatMap jsonEscapeChar) : a = b :=
  flatMap_enc_inj readChunk jsonEscapeChar readChunk_escape jsonEscapeChar_ne_nil h

/-- JSON string literals are injective in their contents. -/
theorem jsonStringChars_inj {s t : String} (h : jsonStringChars s = jsonStringChars t) :
    s = t := by
  unfold jsonStringChars at h
  have h1 : s.data.flatMap jsonEscapeChar ++ ['"'] = t.data.flatMap jsonEscapeChar ++ ['"'] :=
    (List.cons_inj_right _).mp h
  have h2 := List.append_cancel_right h1
  exact String.ext (flatMap_escape_inj h2)

/-- A JSON string literal always starts with a quote, so it is never the
token `null`. -/
theorem jsonOptChars_inj {o p : Option String} (h : jsonOptChars o = jsonOptChars p) :
    o = p := by
  cases o with
  | none =>
    cases p with
    | none => rfl
    | some t =>
      exfalso
      simp only [jsonOptChars, jsonStringChars] at h
      exact absurd (List.head_eq_of_cons_eq h) (by decide)
  | some s =>
    cases p with
    | none =>
      exfalso
      simp only [jsonOptChars, jsonStringChars] at h
      exact absurd (List.head_eq_of_cons_eq h) (by decide)
    | some t =>
      simp only [jsonOptChars] at h
      exact congrArg some (jsonStringChars_inj h)

/-! ## UTF-8: roundtrip and injectivity -/

/-- Reading a UTF-8 chunk undoes the encoding of one code point. -/
theorem readUtf8_charUtf8 (c : Char) (L : List Nat) :
    readUtf8 (charUtf8 c ++ L) = some (c, L) := by
  have hvt : c.toNat = c.val.toNat := rfl
  have hval := c.valid
  have hmax : c.toNat < 0x110000 := by rcases hval with h | ⟨h1, h2⟩ <;> omega
  by_cases h1 : c.toNat < 0x80
  · rw [show charUtf8 c = [c.toNat] by simp only [charUtf8, if_pos h1]]
    simp only [List.cons_append, List.nil_append, readUtf8]
    rw [if_pos h1, Char.ofNat_toNat]
  by_cases h2 : c.toNat < 0x800
  · rw [show charUtf8 c = [0xC0 + c.toNat / 64, 0x80 + c.toNat % 64] by
      simp only [charUtf8, if_neg h1, if_pos h2]]
    simp only [List.cons_append, List.nil_append, readUtf8]
    rw [if_neg (by omega), if_pos (by omega),
        show (0xC0 + c.toNat / 64 - 0xC0) * 64 + (0x80 + c.toNat % 64 - 0x80) = c.toNat by
          omega,
        Char.ofNat_toNat]
  by_cases h3 : c.toNat < 0x10000
  · rw [show charUtf8 c =
        [0xE0 + c.toNat / 4096, 0x80 + c.toNat / 64 % 64, 0x80 + c.toNat % 64] by
      simp only [charUtf8, if_neg h1, if_neg h2, if_pos h3]]
    simp only [List.cons_append, List.nil_append, readUtf8]
    rw [if_neg (by omega), if_neg (by omega), if_pos (by omega),
        show (0xE0 + c.toNat / 4096 - 0xE0) * 4096 + (0x80 + c.toNat / 64 % 64 - 0x80) * 64 +
            (0x80 + c.toNat % 64 - 0x80) = c.toNat by omega,
        Char.ofNat_toNat]
  · rw [show charUtf8 c =
        [0xF0 + c.toNat / 0x40000, 0x80 + c.toNat / 4096 % 64,
         0x80 + c.toNat / 64 % 64, 0x80 + c.toNat % 64] by
      simp only [charUtf8, if_neg h1, if_neg h2, if_neg h3]]
    simp only [List.cons_append, List.nil_append, readUtf8]
    rw [if_neg (by omega), if_neg (by omega), if_neg (by omega),
        show (0xF0 + c.toNat / 0x40000 - 0xF0) * 0x40000 +
            (0x80 + c.toNat / 4096 % 64 - 0x80) * 4096 +
            (0x80 + c.toNat / 64 % 64 - 0x80) * 64 +
            (0x80 + c.toNat % 64 - 0x80) = c.toNat by omega,
        Char.ofNat_toNat]

/-- A UTF-8 chunk is never empty. -/
theorem charUtf8_ne_nil (c : Char) : charUtf8 c ≠ [] := by
  intro h
  have h2 := readUtf8_charUtf8 c []
  rw [h, List.nil_append] at h2
  exact Option.noConfusion h2

/-- UTF-8 encoding is injective on strings. -/
theorem utf8Encode_inj {s t : String} (h : utf8Encode s = utf8Encode t) : s = t :=
  String.ext (flatMap_enc_inj readUtf8 charUtf8 readUtf8_charUtf8 charUtf8_ne_nil h)

/-- UTF-8 encoding turns string concatenation into byte concatenation. -/
theorem utf8Encode_append (s t : String) :
    utf8Encode (s ++ t) = utf8Encode s ++ utf8Encode t := by
  unfold utf8Encode
  rw [String.data_append, List.flatMap_append]

/-! ## Structure of the canonical encoding -/

/-- The canonical encoding splits around the `description` value. -/
theorem canonicalChars_desc_split (a : ImpactAction) :
    canonicalChars a = descBefore a ++ jsonOptChars a.description ++ descAfter a := by
  simp only [canonicalChars, descBefore, descAfter, List.append_assoc, List.cons_append,
    List.nil_append]

/-- Changing only the actor changes the canonical encoding. -/
theorem canonical_ne_actor {a a' : ImpactAction} (hne : a.actor ≠ a'.actor)
    (h2 : a.category = a'.category) (h3 : a.description = a'.description)
    (h4 : a.evidence_url = a'.evidence_url) (h5 : a.location = a'.location)
    (h6 : a.quantity = a'.quantity) (h7 : a.title = a'.title) (h8 : a.unit = a'.unit) :
    canonicalChars a ≠ canonicalChars a' := by
  intro h
  simp only [canonicalChars, h2, h3, h4, h5, h6, h7, h8, List.append_assoc,
    List.cons_append] at h
  have p1 := List.tail_eq_of_cons_eq h
  have p2 := List.append_cancel_left p1
  have p3 := List.tail_eq_of_cons_eq p2
  exact hne (jsonStringChars_inj (List.append_cancel_right p3))

/-- Changing only the category changes the canonical encoding. -/
theorem canonical_ne_category {a a' : ImpactAction} (h1 : a.actor = a'.actor)
    (hne : a.category ≠ a'.category) (h3 : a.description = a'.description)
    (h4 : a.evidence_url = a'.evidence_url) (h5 : a.location = a'.location)
    (h6 : a.quantity = a'.quantity) (h7 : a.title = a'.title) (h8 : a.unit = a'.unit) :
    canonicalChars a ≠ canonicalChars a' := by
  intro h
  simp only [canonicalChars, h1, h3, h4, h5, h6, h7, h8, List.append_assoc,
    List.cons_append] at h
  have p1 := List.tail_eq_of_cons_eq h
  have p2 := List.append_cancel_left p1
  have p3 := List.tail_eq_of_cons_eq p2
  have p4 := List.append_cancel_left p3
  have p5 := List.tail_eq_of_cons_eq p4
  have p6 := List.append_cancel_left p5
  have p7 := List.tail_eq_of_cons_eq p6
  exact hne (jsonStringChars_inj (List.append_cancel_right p7))

/-- Changing only the description changes the canonical encoding. -/
theorem canonical_ne_description {a a' : ImpactAction} (h1 : a.actor = a'.actor)
    (h2 : a.category = a'.category) (hne : a.description ≠ a'.description)
    (h4 : a.evidence_url = a'.evidence_url) (h5 : a.location = a'.location)
    (h6 : a.quantity = a'.quantity) (h7 : a.title = a'.title) (h8 : a.unit = a'.unit) :
    canonicalChars a ≠ canonicalChars a' := by
  intro h
  simp only [canonicalChars, h1, h2, h4, h5, h6, h7, h8, List.append_assoc,
    List.cons_append] at h
  have p1 := List.tail_eq_of_cons_eq h
  have p2 := List.append_cancel_left p1
  have p3 := List.tail_eq_of_cons_eq p2
  have p4 := List.append_cancel_left p3
  have p5 := List.tail_eq_of_cons_eq p4
  have p6 := List.append_cancel_left p5
  have p7 := List.tail_eq_of_cons_eq p6
  have p8 := List.append_cancel_left p7
  have p9 := List.tail_eq_of_cons_eq p8
  have p10 := List.append_cancel_left p9
  have p11 := List.tail_eq_of_cons_eq p10
  exact hne (jsonOptChars_inj (List.append_cancel_right p11))

/-- Changing only the evidence URL changes the canonical encoding. -/
theorem canonical_ne_evidence {a a' : ImpactAction} (h1 : a.actor = a'.actor)
    (h2 : a.category = a'.category) (h3 : a.description = a'.description)
    (hne : a.evidence_url ≠ a'.evidence_url) (h5 : a.location = a'.location)
    (h6 : a.quantity = a'.quantity) (h7 : a.title = a'.title) (h8 : a.unit = a'.unit) :
    canonicalChars a ≠ canonicalChars a' := by
  intro h
  simp only [canonicalChars, h1, h2, h3, h5, h6, h7, h8, List.append_assoc,
    List.cons_append] at h
  have p1 := List.tail_eq_of_cons_eq h
  have p2 := List.append_cancel_left p1
  have p3 := List.tail_eq_of_cons_eq p2
  have p4 := List.append_cancel_left p3
  have p5 := List.tail_eq_of_cons_eq p4
  have p6 := List.append_cancel_left p5
  have p7 := List.tail_eq_of_cons_eq p6
  have p8 := List.append_cancel_left p7
  have p9 := List.tail_eq_of_cons_eq p8
  have p10 := List.append_cancel_left p9
  have p11 := List.tail_eq_of_cons_eq p10
  have p12 := List.append_cancel_left p11
  have p13 := List.tail_eq_of_cons_eq p12
  have p14 := List.append_cancel_left p13
  have p15 := List.tail_eq_of_cons_eq p14
  exact hne (jsonOptChars_inj (List.append_cancel_right p15))

/-- Changing only the location changes the canonical encoding. -/
theorem canonical_ne_location {a a' : ImpactAction} (h1 : a.actor = a'.actor)
    (h2 : a.category = a'.category) (h3 : a.description = a'.description)
    (h4 : a.evidence_url = a'.evidence_url) (hne : a.location ≠ a'.location)
    (h6 : a.quantity = a'.quantity) (h7 : a.title = a'.title) (h8 : a.unit = a'.unit) :
    canonicalChars a ≠ canonicalChars a' := by
  intro h
  simp only [canonicalChars, h1, h2, h3, h4, h6, h7, h8, List.append_assoc,
    List.cons_append] at h
  have p1 := List.tail_eq_of_cons_eq h
  have p2 := List.append_cancel_left p1
  have p3 := List.tail_eq_of_cons_eq p2
  have p4 := List.append_cancel_left p3
  have p5 := List.tail_eq_of_cons_eq p4
  have p6 := List.append_cancel_left p5
  have p7 := List.tail_eq_of_cons_eq p6
  have p8 := List.append_cancel_left p7
  have p9 := List.tail_eq_of_cons_eq p8
  have p10 := List.append_cancel_left p9
  have p11 := List.tail_eq_of_cons_eq p10
  have p12 := List.append_cancel_left p11
  have p13 := List.tail_eq_of_cons_eq p12
  have p14 := List.append_cancel_left p13
  have p15 := List.tail_eq_of_cons_eq p14
  have p16 := List.append_cancel_left p15
  have p17 := List.tail_eq_of_cons_eq p16
  have p18 := List.append_cancel_left p17
  have p19 := List.tail_eq_of_cons_eq p18
  exact hne (jsonOptChars_inj (List.append_cancel_right p19))

/-- Changing only the quantity token changes the canonical encoding. -/
theorem canonical_ne_quantity {a a' : ImpactAction} (h1 : a.actor = a'.actor)
    (h2 : a.category = a'.category) (h3 : a.description = a'.description)
    (h4 : a.evidence_url = a'.evidence_url) (h5 : a.location = a'.location)
    (hne : a.quantity ≠ a'.quantity) (h7 : a.title = a'.title) (h8 : a.unit = a'.unit) :
    canonicalChars a ≠ canonicalChars a' := by
  intro h
  simp only [canonicalChars, h1, h2, h3, h4, h5, h7, h8, List.append_assoc,
    List.cons_append] at h
  have p1 := List.tail_eq_of_cons_eq h
  have p2 := List.append_cancel_left p1
  have p3 := List.tail_eq_of_cons_eq p2
  have p4 := List.append_cancel_left p3
  have p5 := List.tail_eq_of_cons_eq p4
  have p6 := List.append_cancel_left p5
  have p7 := List.tail_eq_of_cons_eq p6
  have p8 := List.append_cancel_left p7
  have p9 := List.tail_eq_of_cons_eq p8
  have p10 := List.append_cancel_left p9
  have p11 := List.tail_eq_of_cons_eq p10
  have p12 := List.append_cancel_left p11
  have p13 := List.tail_eq_of_cons_eq p12
  have p14 := List.append_cancel_left p13
  have p15 := List.tail_eq_of_cons_eq p14
  have p16 := List.append_cancel_left p15
  have p17 := List.tail_eq_of_cons_eq p16
  have p18 := List.append_cancel_left p17
  have p19 := List.tail_eq_of_cons_eq p18
  have p20 := List.append_cancel_left p19
  have p21 := List.tail_eq_of_cons_eq p20
  have p22 := List.append_cancel_left p21
  have p23 := List.tail_eq_of_cons_eq p22
  exact hne (String.ext (List.append_cancel_right p23))

/-- Changing only the title changes the canonical encoding. -/
theorem canonical_ne_title {a a' : ImpactAction} (h1 : a.actor = a'.actor)
    (h2 : a.category = a'.category) (h3 : a.description = a'.description)
    (h4 : a.evidence_url = a'.evidence_url) (h5 : a.location = a'.location)
    (h6 : a.quantity = a'.quantity) (hne : a.title ≠ a'.title) (h8 : a.unit = a'.unit) :
    canonicalChars a ≠ canonicalChars a' := by
  intro h
  simp only [canonicalChars, h1, h2, h3, h4, h5, h6, h8, List.append_assoc,
    List.cons_append] at h
  have p1 := List.tail_eq_of_cons_eq h
  have p2 := List.append_cancel_left p1
  have p3 := List.tail_eq_of_cons_eq p2
  have p4 := List.append_cancel_left p3
  have p5 := List.tail_eq_of_cons_eq p4
  have p6 := List.append_cancel_left p5
  have p7 := List.tail_eq_of_cons_eq p6
  have p8 := List.append_cancel_left p7
  have p9 := List.tail_eq_of_cons_eq p8
  have p10 := List.append_cancel_left p9
  have p11 := List.tail_eq_of_cons_eq p10
  have p12 := List.append_cancel_left p11
  have p13 := List.tail_eq_of_cons_eq p12
  have p14 := List.append_cancel_left p13
  have p15 := List.tail_eq_of_cons_eq p14
  have p16 := List.append_cancel_left p15
  have p17 := List.tail_eq_of_cons_eq p16
  have p18 := List.append_cancel_left p17
  have p19 := List.tail_eq_of_cons_eq p18
  have p20 := List.append_cancel_left p19
  have p21 := List.tail_eq_of_cons_eq p20
  have p22 := List.append_cancel_left p21
  have p23 := List.tail_eq_of_cons_eq p22
  have p24 := List.append_cancel_left p23
  have p25 := List.tail_eq_of_cons_eq p24
  have p26 := List.append_cancel_left p25
  have p27 := List.tail_eq_of_cons_eq p26
  exact hne (jsonStringChars_inj (List.append_cancel_right p27))

/-- Changing only the unit changes the canonical encoding. -/
theorem canonical_ne_unit {a a' : ImpactAction} (h1 : a.actor = a'.actor)
    (h2 : a.category = a'.category) (h3 : a.description = a'.description)
    (h4 : a.evidence_url = a'.evidence_url) (h5 : a.location = a'.location)
    (h6 : a.quantity = a'.quantity) (h7 : a.title = a'.title) (hne : a.unit ≠ a'.unit) :
    canonicalChars a ≠ canonicalChars a' := by
  intro h
  simp only [canonicalChars, h1, h2, h3, h4, h5, h6, h7, List.append_assoc,
    List.cons_append] at h
  have p1 := List.tail_eq_of_cons_eq h
  have p2 := List.append_cancel_left p1
  have p3 := List.tail_eq_of_cons_eq p2
  have p4 := List.append_cancel_left p3
  have p5 := List.tail_eq_of_cons_eq p4
  have p6 := List.append_cancel_left p5
  have p7 := List.tail_eq_of_cons_eq p6
  have p8 := List.append_cancel_left p7
  have p9 := List.tail_eq_of_cons_eq p8
  have p10 := List.append_cancel_left p9
  have p11 := List.tail_eq_of_cons_eq p10
  have p12 := List.append_cancel_left p11
  have p13 := List.tail_eq_of_cons_eq p12
  have p14 := List.append_cancel_left p13
  have p15 := List.tail_eq_of_cons_eq p14
  have p16 := List.append_cancel_left p15
  have p17 := List.tail_eq_of_cons_eq p16
  have p18 := List.append_cancel_left p17
  have p19 := List.tail_eq_of_cons_eq p18
  have p20 := List.append_cancel_left p19
  have p21 := List.tail_eq_of_cons_eq p20
  have p22 := List.append_cancel_left p21
  have p23 := List.tail_eq_of_cons_eq p22
  have p24 := List.append_cancel_left p23
  have p25 := List.tail_eq_of_cons_eq p24
  have p26 := List.append_cancel_left p25
  have p27 := List.tail_eq_of_cons_eq p26
  have p28 := List.append_cancel_left p27
  have p29 := List.tail_eq_of_cons_eq p28
  have p30 := List.append_cancel_left p29
  have p31 := List.tail_eq_of_cons_eq p30
  exact hne (jsonStringChars_inj (List.append_cancel_right p31))

/-- Distinct canonical encodings force distinct hash inputs, whatever the
salt. -/
theorem hashInput_ne {a a' : ImpactAction} (salt : Option String)
    (h : canonicalChars a ≠ canonicalChars a') :
    hashInput a salt ≠ hashInput a' salt := by
  intro heq
  apply h
  have h2 : canonicalString a ++ salt.getD "" = canonicalString a' ++ salt.getD "" :=
    utf8Encode_inj heq
  have h3 := congrArg String.data h2
  rw [String.data_append, String.data_append] at h3
  exact List.append_cancel_right h3

/-! ## Digest length and character-set facts -/

theorem sha256Compress_length (h block : List Nat) : (sha256Compress h block).length = 8 :=
  rfl

theorem sha256Blocks_length (h ws : List Nat) (hh : h.length = 8) :
    (sha256Blocks h ws).length = 8 := by
  induction h, ws using sha256Blocks.induct with
  | case1 h w0 w1 w2 w3 w4 w5 w6 w7 w8 w9 w10 w11 w12 w13 w14 w15 rest ih =>
    rw [sha256Blocks]
    exact ih (sha256Compress_length _ _)
  | case2 h ws hws =>
    rw [sha256Blocks.eq_def]
    split
    · exact (hws _ _ _ _ _ _ _ _ _ _ _ _ _ _ _ _ _ rfl).elim
    · exact hh

theorem flatMap_quad_length (l : List Nat) (f1 f2 f3 f4 : Nat → Nat) :
    (l.flatMap (fun w => [f1 w, f2 w, f3 w, f4 w])).length = 4 * l.length := by
  induction l with
  | nil => rfl
  | cons x xs ih => simp only [List.flatMap_cons, List.length_append, ih,
      List.length_cons, List.length_nil, List.length_cons]; omega

theorem sha256_length (msg : List Nat) : (sha256 msg).length = 32 := by
  unfold sha256
  rw [flatMap_quad_length,
      sha256Blocks_length sha256H0 (toWords (sha256Pad msg)) rfl]

theorem flatMap_byteHex_length (l : List Nat) : (l.flatMap byteHex).length = 2 * l.length := by
  induction l with
  | nil => rfl
  | cons x xs ih => simp only [List.flatMap_cons, byteHex, List.length_append, ih,
      List.length_cons, List.length_nil]; omega

theorem sha256hex_length (msg : List Nat) : (sha256hex msg).length = 64 := by
  show ((sha256 msg).flatMap byteHex).length = 64
  rw [flatMap_byteHex_length, sha256_length]

theorem data_sha256hex_length (msg : List Nat) : (sha256hex msg).data.length = 64 := by
  show ((sha256 msg).flatMap byteHex).length = 64
  rw [flatMap_byteHex_length, sha256_length]

theorem sha256hex_lowerHex (msg : List Nat) :
    ∀ c ∈ (sha256hex msg).data, isLowerHex c = true := by
  intro c hc
  have hc2 : c ∈ (sha256 msg).flatMap byteHex := hc
  obtain ⟨b, _, hb⟩ := List.mem_flatMap.mp hc2
  simp only [byteHex, List.mem_cons, List.not_mem_nil, or_false] at hb
  rcases hb with h | h
  · exact h ▸ hexChar_isLowerHex _ (by omega)
  · exact h ▸ hexChar_isLowerHex _ (by omega)

/-! ## Store facts -/

/-- Replacing the first document with a given id leaves it findable, with
the new contents. -/
theorem find?_setAction (l : List (String × ImpactAction)) (id : String)
    (d : ImpactAction) (kv : String × ImpactAction)
    (hfind : l.find? (fun kv => kv.1 == id) = some kv) :
    (setAction l id d).find? (fun kv => kv.1 == id) = some (kv.1, d) := by
  induction l with
  | nil => exact Option.noConfusion hfind
  | cons x xs ih =>
    cases x with
    | mk k v =>
      by_cases hx : (k == id) = true
      · rw [List.find?_cons_of_pos xs
            (show (fun kv : String × ImpactAction => kv.1 == id) (k, v) = true from hx)]
          at hfind
        have hxkv := Option.some.inj hfind
        rw [show setAction ((k, v) :: xs) id d = (k, d) :: xs from by
              simp only [setAction, if_pos hx]]
        rw [List.find?_cons_of_pos xs
            (show (fun kv : String × ImpactAction => kv.1 == id) (k, d) = true from hx)]
        rw [← hxkv]
      · rw [List.find?_cons_of_neg xs
            (show ¬ (fun kv : String × ImpactAction => kv.1 == id) (k, v) = true from hx)]
          at hfind
        rw [show setAction ((k, v) :: xs) id d = (k, v) :: setAction xs id d from by
              simp only [setAction, if_neg hx]]
        rw [List.find?_cons_of_neg (setAction xs id d)
            (show ¬ (fun kv : String × ImpactAction => kv.1 == id) (k, v) = true from hx)]
        exact ih hfind

/-- Unpack a successful lookup: the id is well-formed and the collection
holds a first entry with that key and document. -/
theorem findAction_some_elim {st : Store} {id : String} {raw : ImpactAction}
    (hfind : findAction st id = some raw) :
    isValidObjectId id = true ∧
    ∃ k, st.impactaction.find? (fun kv => kv.1 == id) = some (k, raw) := by
  unfold findAction at hfind
  by_cases hv : isValidObjectId id
  · rw [if_pos hv] at hfind
    obtain ⟨kv, hkv, hkv2⟩ := Option.map_eq_some'.mp hfind
    refine ⟨hv, kv.1, ?_⟩
    rw [hkv, show (kv.1, raw) = kv from Prod.ext_iff.mpr ⟨rfl, hkv2.symm⟩]
  · rw [if_neg hv] at hfind
    exact Option.noConfusion hfind

/-- Rebuilding the model for hashing only resets the timestamps, which the
canonical encoding excludes, so the hash is unchanged. -/
theorem action_proof_hash_rebuild (raw : ImpactAction) (salt : Option String) :
    action_proof_hash (rebuildModel raw) salt = action_proof_hash raw salt := rfl

/-- The full effect of `attest_action` on a found action: the response and
the two collection writes. -/
theorem attest_found_spec (st : Store) (action_id : String) (body : CreateProofRequest)
    (now : Nat) (raw : ImpactAction) (hfind : findAction st action_id = some raw) :
    attest_action st action_id body now =
      ({ impactaction := setAction st.impactaction action_id
           { raw with
               attested := true,
               proof_hash := some (action_proof_hash raw body.salt),
               tx_id := some (txIdOf (action_proof_hash raw body.salt)),
               updated_at := some now },
         proof := st.proof ++
           [{ action_id := action_id,
              proof_hash := action_proof_hash raw body.salt,
              tx_id := txIdOf (action_proof_hash raw body.salt),
              network := "sim-chain", signer_address := body.signer_address,
              signature := body.signature, chain_id := body.chain_id,
              created_at := now, updated_at := now }] },
       Except.ok (action_proof_hash raw body.salt,
                  txIdOf (action_proof_hash raw body.salt))) := by
  simp only [attest_action, hfind, action_proof_hash_rebuild]

/-- After the update write, looking the action up returns the updated
document. -/
theorem findAction_after_attest (st : Store) (id : String) (d raw : ImpactAction)
    (pr : List ProofDoc) (hfind : findAction st id = some raw) :
    findAction { impactaction := setAction st.impactaction id d, proof := pr } id =
      some d := by
  obtain ⟨hv, k, hk⟩ := findAction_some_elim hfind
  unfold findAction
  rw [if_pos hv]
  show ((setAction st.impactaction id d).find? (fun kv => kv.1 == id)).map _ = some d
  rw [find?_setAction st.impactaction id d (k, raw) hk]
  rfl

/-! ## The claims -/

/-- C1: for every action content and optional salt, `derive` returns
`(proof_hash, tx_id)` where `proof_hash` is the hex SHA-256 digest of the
canonical bytes of the content fields with the salt's bytes appended (the
empty string when absent, appended before hashing), and `tx_id` is the
first 32 hex characters of the hex SHA-256 digest of `proof_hash ++ "|tx"`. -/
theorem derive_hash_and_txid_spec (a : ImpactAction) (salt : Option String) :
    (derive a salt).1 =
      sha256hex (utf8Encode (canonicalString a) ++ utf8Encode (salt.getD "")) ∧
    (derive a salt).2 =
      (sha256hex (utf8Encode ((derive a salt).1 ++ "|tx"))).take 32 := by
  constructor
  · simp only [derive]
    unfold action_proof_hash
    rw [utf8Encode_append]
  · simp only [derive, txIdOf]

/-- C2: after `attest` succeeds on an existing action, the stored action
has `attested = true` and `proof_hash`/`tx_id` equal to exactly the
returned pair, which equals the pair derivable from the action's current
content and the salt just used; a new Proof record with the same values
is appended. -/
theorem attest_success_postcondition (st : Store) (action_id : String)
    (body : CreateProofRequest) (now : Nat) (raw : ImpactAction)
    (hfind : findAction st action_id = some raw) :
    ∃ phash txid : String,
      (attest_action st action_id body now).2 = Except.ok (phash, txid) ∧
      (phash, txid) = derive raw body.salt ∧
      findAction (attest_action st action_id body now).1 action_id =
        some { raw with
                 attested := true,
                 proof_hash := some phash,
                 tx_id := some txid,
                 updated_at := some now } ∧
      (attest_action st action_id body now).1.proof =
        st.proof ++
          [{ action_id := action_id, proof_hash := phash, tx_id := txid,
             network := "sim-chain", signer_address := body.signer_address,
             signature := body.signature, chain_id := body.chain_id,
             created_at := now, updated_at := now }] := by
  refine ⟨action_proof_hash raw body.salt, txIdOf (action_proof_hash raw body.salt),
    ?_, rfl, ?_, ?_⟩
  · rw [attest_found_spec st action_id body now raw hfind]
  · rw [attest_found_spec st action_id body now raw hfind]
    exact findAction_after_attest st action_id _ raw _ hfind
  · rw [attest_found_spec st action_id body now raw hfind]

/-- Witness for C2 at the example store. -/
theorem attest_success_postcondition_witness :
    findAction exStore exId = some exAction ∧
    ∃ phash txid : String,
      (attest_action exStore exId exBody 0).2 = Except.ok (phash, txid) ∧
      (phash, txid) = derive exAction exBody.salt ∧
      findAction (attest_action exStore exId exBody 0).1 exId =
        some { exAction with
                 attested := true,
                 proof_hash := some phash,
                 tx_id := some txid,
                 updated_at := some 0 } ∧
      (attest_action exStore exId exBody 0).1.proof =
        exStore.proof ++
          [{ action_id := exId, proof_hash := phash, tx_id := txid,
             network := "sim-chain", signer_address := exBody.signer_address,
             signature := exBody.signature, chain_id := exBody.chain_id,
             created_at := 0, updated_at := 0 }] :=
  ⟨by decide, attest_success_postcondition exStore exId exBody 0 exAction (by decide)⟩

/-- C3: attesting a missing action fails with the not-found condition and
performs no writes: the store is returned unchanged, so no Proof record
is created and no action record is modified. -/
theorem attest_notFound_no_writes (st : Store) (action_id : String)
    (body : CreateProofRequest) (now : Nat)
    (hfind : findAction st action_id = none) :
    attest_action st action_id body now = (st, Except.error AttestError.notFound) := by
  simp only [attest_action, hfind]

/-- Witness for C3 at a well-formed but absent id. -/
theorem attest_notFound_no_writes_witness :
    findAction exStore "ffffffffffffffffffffffff" = none ∧
    attest_action exStore "ffffffffffffffffffffffff" exBody 0 =
      (exStore, Except.error AttestError.notFound) :=
  ⟨by decide,
   attest_notFound_no_writes exStore "ffffffffffffffffffffffff" exBody 0 (by decide)⟩

/-- C5: derivation is deterministic: any two actions agreeing on the eight
content fields yield the identical `(proof_hash, tx_id)` pair under the
same salt, whatever their other fields. -/
theorem derive_deterministic (a a' : ImpactAction) (salt : Option String)
    (h1 : a.actor = a'.actor) (h2 : a.title = a'.title)
    (h3 : a.description = a'.description) (h4 : a.category = a'.category)
    (h5 : a.quantity = a'.quantity) (h6 : a.unit = a'.unit)
    (h7 : a.location = a'.location) (h8 : a.evidence_url = a'.evidence_url) :
    derive a salt = derive a' salt := by
  unfold derive action_proof_hash canonicalString
  rw [show canonicalChars a = canonicalChars a' by
    simp only [canonicalChars, h1, h2, h3, h4, h5, h6, h7, h8]]

/-- Witness for C5: two actions differing only in attestation state give
the same pair. -/
theorem derive_deterministic_witness :
    exAction.actor = exActionAttested.actor ∧
    derive exAction none = derive exActionAttested none :=
  ⟨rfl, derive_deterministic exAction exActionAttested none
    rfl rfl rfl rfl rfl rfl rfl rfl⟩

/-- C4: the attestation-derived fields `attested`, `proof_hash`, `tx_id`,
`created_at`, `updated_at` are never part of the encoded content —
changing them leaves a recomputed proof hash unchanged — while changing
any single content field changes the SHA-256 hash input, and on the
specification's example changing `quantity` from 12.5 to 12.6 changes
`proof_hash` itself. -/
theorem proof_hash_content_sensitivity :
    (∀ (a : ImpactAction) (salt : Option String) (att : Bool)
       (ph tx : Option String) (ca ua : Option Nat),
        action_proof_hash { a with attested := att, proof_hash := ph, tx_id := tx, created_at := ca, updated_at := ua } salt =
          action_proof_hash a salt) ∧
    (∀ (a : ImpactAction) (salt : Option String) (x : String),
        x ≠ a.actor → hashInput { a with actor := x } salt ≠ hashInput a salt) ∧
    (∀ (a : ImpactAction) (salt : Option String) (x : String),
        x ≠ a.title → hashInput { a with title := x } salt ≠ hashInput a salt) ∧
    (∀ (a : ImpactAction) (salt : Option String) (x : Option String),
        x ≠ a.description → hashInput { a with description := x } salt ≠ hashInput a salt) ∧
    (∀ (a : ImpactAction) (salt : Option String) (x : String),
        x ≠ a.category → hashInput { a with category := x } salt ≠ hashInput a salt) ∧
    (∀ (a : ImpactAction) (salt : Option String) (x : String),
        x ≠ a.quantity → hashInput { a with quantity := x } salt ≠ hashInput a salt) ∧
    (∀ (a : ImpactAction) (salt : Option String) (x : String),
        x ≠ a.unit → hashInput { a with unit := x } salt ≠ hashInput a salt) ∧
    (∀ (a : ImpactAction) (salt : Option String) (x : Option String),
        x ≠ a.location → hashInput { a with location := x } salt ≠ hashInput a salt) ∧
    (∀ (a : ImpactAction) (salt : Option String) (x : Option String),
        x ≠ a.evidence_url → hashInput { a with evidence_url := x } salt ≠ hashInput a salt) ∧
    action_proof_hash exActionQ none ≠ action_proof_hash exAction none := by
  refine ⟨?_, ?_, ?_, ?_, ?_, ?_, ?_, ?_, ?_, ?_⟩
  · intro a salt att ph tx ca ua
    rfl
  · intro a salt x hx
    exact hashInput_ne salt (canonical_ne_actor hx rfl rfl rfl rfl rfl rfl rfl)
  · intro a salt x hx
    exact hashInput_ne salt (canonical_ne_title rfl rfl rfl rfl rfl rfl hx rfl)
  · intro a salt x hx
    exact hashInput_ne salt (canonical_ne_description rfl rfl hx rfl rfl rfl rfl rfl)
  · intro a salt x hx
    exact hashInput_ne salt (canonical_ne_category rfl hx rfl rfl rfl rfl rfl rfl)
  · intro a salt x hx
    exact hashInput_ne salt (canonical_ne_quantity rfl rfl rfl rfl rfl hx rfl rfl)
  · intro a salt x hx
    exact hashInput_ne salt (canonical_ne_unit rfl rfl rfl rfl rfl rfl rfl hx)
  · intro a salt x hx
    exact hashInput_ne salt (canonical_ne_location rfl rfl rfl rfl hx rfl rfl rfl)
  · intro a salt x hx
    exact hashInput_ne salt (canonical_ne_evidence rfl rfl rfl hx rfl rfl rfl rfl)
  · decide

/-- Witness for C4 at a concrete changed actor. -/
theorem proof_hash_content_sensitivity_witness :
    "Impostor" ≠ exAction.actor ∧
    hashInput { exAction with actor := "Impostor" } none ≠ hashInput exAction none :=
  ⟨by decide, proof_hash_content_sensitivity.2.1 exAction none "Impostor" (by decide)⟩

/-- The characters of the derived transaction id: the first 32 hex
digits of the second digest. -/
theorem data_txIdOf (p : String) :
    (txIdOf p).data = (sha256hex (utf8Encode (p ++ "|tx"))).data.take 32 := by
  unfold txIdOf
  exact String.data_take _ _

/-- The derived transaction id is 32 characters long. -/
theorem txIdOf_data_length (p : String) : (txIdOf p).data.length = 32 := by
  rw [data_txIdOf, List.length_take, data_sha256hex_length]
  norm_num

/-- The derived transaction id is lowercase hex throughout. -/
theorem txIdOf_lowerHex (p : String) : ∀ c ∈ (txIdOf p).data, isLowerHex c = true := by
  intro c hc
  rw [data_txIdOf] at hc
  exact sha256hex_lowerHex _ c (List.take_subset _ _ hc)

/-- C6: for every content and salt, the derived `proof_hash` is exactly
64 lowercase hex characters, the derived `tx_id` exactly 32 lowercase hex
characters, and `tx_id` equals the first 32 characters of the hex digest
of `proof_hash ++ "|tx"`. -/
theorem derive_length_invariants (a : ImpactAction) (salt : Option String) :
    (derive a salt).1.data.length = 64 ∧
    (∀ c ∈ (derive a salt).1.data, isLowerHex c = true) ∧
    (derive a salt).2.data.length = 32 ∧
    (∀ c ∈ (derive a salt).2.data, isLowerHex c = true) ∧
    (derive a salt).2 = (sha256hex (utf8Encode ((derive a salt).1 ++ "|tx"))).take 32 := by
  simp only [derive, action_proof_hash]
  refine ⟨data_sha256hex_length _, sha256hex_lowerHex _, txIdOf_data_length _,
    txIdOf_lowerHex _, ?_⟩
  simp only [txIdOf]

/-- Witness for C6 at the example action. -/
theorem derive_length_invariants_witness :
    (derive exAction none).1.data.length = 64 ∧
    (∀ c ∈ (derive exAction none).1.data, isLowerHex c = true) ∧
    (derive exAction none).2.data.length = 32 ∧
    (∀ c ∈ (derive exAction none).2.data, isLowerHex c = true) ∧
    (derive exAction none).2 =
      (sha256hex (utf8Encode ((derive exAction none).1 ++ "|tx"))).take 32 :=
  derive_length_invariants exAction none

/-- C7: the canonical encoding is the compact-separator JSON object of the
eight content fields with keys in strictly sorted order and no trailing
separators, and depends only on the content field values, so the same
logical record always encodes to the identical byte sequence. -/
theorem canonical_encoding_sorted_compact (a : ImpactAction) :
    canonicalChars a =
      ['\x7b'] ++
        List.intercalate [',']
          ((canonicalFields a).map (fun kv => jsonStringChars kv.1 ++ [':'] ++ kv.2.data)) ++
      ['\x7d'] ∧
    (canonicalFields a).map Prod.fst =
      ["actor", "category", "description", "evidence_url", "location", "quantity",
       "title", "unit"] ∧
    chainLtB ((canonicalFields a).map Prod.fst) = true ∧
    (∀ a' : ImpactAction, a.actor = a'.actor → a.title = a'.title →
      a.description = a'.description → a.category = a'.category →
      a.quantity = a'.quantity → a.unit = a'.unit → a.location = a'.location →
      a.evidence_url = a'.evidence_url → canonicalString a = canonicalString a') := by
  have hkeys : (canonicalFields a).map Prod.fst =
      ["actor", "category", "description", "evidence_url", "location", "quantity",
       "title", "unit"] := rfl
  refine ⟨?_, hkeys, ?_, ?_⟩
  · simp [canonicalFields, List.intercalate, List.intersperse, jsonString, jsonOpt,
      canonicalChars, List.append_assoc]
  · rw [hkeys]
    decide
  · intro a' h1 h2 h3 h4 h5 h6 h7 h8
    unfold canonicalString
    rw [show canonicalChars a = canonicalChars a' by
      simp only [canonicalChars, h1, h2, h3, h4, h5, h6, h7, h8]]

/-- Witness for C7 at the example action. -/
theorem canonical_encoding_sorted_compact_witness :
    canonicalChars exAction =
      ['\x7b'] ++
        List.intercalate [',']
          ((canonicalFields exAction).map
            (fun kv => jsonStringChars kv.1 ++ [':'] ++ kv.2.data)) ++
      ['\x7d'] ∧
    (canonicalFields exAction).map Prod.fst =
      ["actor", "category", "description", "evidence_url", "location", "quantity",
       "title", "unit"] ∧
    chainLtB ((canonicalFields exAction).map Prod.fst) = true ∧
    (∀ a' : ImpactAction, exAction.actor = a'.actor → exAction.title = a'.title →
      exAction.description = a'.description → exAction.category = a'.category →
      exAction.quantity = a'.quantity → exAction.unit = a'.unit →
      exAction.location = a'.location → exAction.evidence_url = a'.evidence_url →
      canonicalString exAction = canonicalString a') :=
  canonical_encoding_sorted_compact exAction

/-- C8: an absent optional field encodes to the fixed token `null`,
present in the canonical bytes rather than omitted, and is distinguishable
from the literal text "null" as a value: an action with `description =
None` and an otherwise-equal one with `description = "null"` have
different hash inputs — concretely, different proof hashes. -/
theorem none_encoding_distinct_from_null_text :
    jsonOptChars none = ['n', 'u', 'l', 'l'] ∧
    (∀ a : ImpactAction, a.description = none →
      canonicalChars a = descBefore a ++ ['n', 'u', 'l', 'l'] ++ descAfter a) ∧
    (∀ (a a' : ImpactAction) (salt : Option String),
      a.description = none → a'.description = some "null" →
      a.actor = a'.actor → a.category = a'.category →
      a.evidence_url = a'.evidence_url → a.location = a'.location →
      a.quantity = a'.quantity → a.title = a'.title → a.unit = a'.unit →
      hashInput a salt ≠ hashInput a' salt) ∧
    hashInput exAction none ≠ hashInput exActionNullText none ∧
    action_proof_hash exAction none ≠ action_proof_hash exActionNullText none := by
  refine ⟨rfl, ?_, ?_, ?_, ?_⟩
  · intro a h
    rw [canonicalChars_desc_split, h]
    rfl
  · intro a a' salt hd hd' h1 h2 h3 h4 h5 h6 h7
    refine hashInput_ne salt (canonical_ne_description h1 h2 ?_ h3 h4 h5 h6 h7)
    rw [hd, hd']
    simp
  · have h : exAction.description ≠ exActionNullText.description := by decide
    exact hashInput_ne none (canonical_ne_description rfl rfl h rfl rfl rfl rfl rfl)
  · decide

/-- Witness for C8's universal parts at the example pair. -/
theorem none_encoding_distinct_witness :
    exAction.description = none ∧
    canonicalChars exAction =
      descBefore exAction ++ ['n', 'u', 'l', 'l'] ++ descAfter exAction :=
  ⟨rfl, none_encoding_distinct_from_null_text.2.1 exAction rfl⟩

/-- C9: attest has no unattested precondition: re-attesting an
already-attested action succeeds, appends one further Proof record while
every previously stored Proof record is preserved unchanged, and
overwrites the action's stored `proof_hash`/`tx_id` with the newly derived
values. -/
theorem reattest_supersedes (st : Store) (action_id : String)
    (body : CreateProofRequest) (now : Nat) (raw : ImpactAction)
    (hfind : findAction st action_id = some raw) (_hatt : raw.attested = true) :
    ∃ phash txid : String,
      (attest_action st action_id body now).2 = Except.ok (phash, txid) ∧
      (phash, txid) = derive raw body.salt ∧
      (∀ p ∈ st.proof, p ∈ (attest_action st action_id body now).1.proof) ∧
      (attest_action st action_id body now).1.proof =
        st.proof ++
          [{ action_id := action_id, proof_hash := phash, tx_id := txid,
             network := "sim-chain", signer_address := body.signer_address,
             signature := body.signature, chain_id := body.chain_id,
             created_at := now, updated_at := now }] ∧
      findAction (attest_action st action_id body now).1 action_id =
        some { raw with
                 attested := true,
                 proof_hash := some phash,
                 tx_id := some txid,
                 updated_at := some now } := by
  refine ⟨action_proof_hash raw body.salt, txIdOf (action_proof_hash raw body.salt),
    ?_, rfl, ?_, ?_, ?_⟩
  · rw [attest_found_spec st action_id body now raw hfind]
  · intro p hp
    rw [attest_found_spec st action_id body now raw hfind]
    exact List.mem_append_left _ hp
  · rw [attest_found_spec st action_id body now raw hfind]
  · rw [attest_found_spec st action_id body now raw hfind]
    exact findAction_after_attest st action_id _ raw _ hfind

/-- Witness for C9 at the already-attested example store. -/
theorem reattest_supersedes_witness :
    findAction exStoreAttested exId = some exActionAttested ∧
    exActionAttested.attested = true ∧
    ∃ phash txid : String,
      (attest_action exStoreAttested exId exBody 0).2 = Except.ok (phash, txid) ∧
      (phash, txid) = derive exActionAttested exBody.salt ∧
      (∀ p ∈ exStoreAttested.proof,
        p ∈ (attest_action exStoreAttested exId exBody 0).1.proof) ∧
      (attest_action exStoreAttested exId exBody 0).1.proof =
        exStoreAttested.proof ++
          [{ action_id := exId, proof_hash := phash, tx_id := txid,
             network := "sim-chain", signer_address := exBody.signer_address,
             signature := exBody.signature, chain_id := exBody.chain_id,
             created_at := 0, updated_at := 0 }] ∧
      findAction (attest_action exStoreAttested exId exBody 0).1 exId =
        some { exActionAttested with
                 attested := true,
                 proof_hash := some phash,
                 tx_id := some txid,
                 updated_at := some 0 } :=
  ⟨by decide, rfl,
   reattest_supersedes exStoreAttested exId exBody 0 exActionAttested (by decide) rfl⟩

/-- C10: an action id that does not even parse as a storage object id
fails exactly like a well-formed but absent id: the same not-found error,
no writes, and a result indistinguishable from the absent-id case. -/
theorem malformed_id_notFound (st : Store) (body : CreateProofRequest) (now : Nat)
    (bad good : String) (hbad : isValidObjectId bad = false)
    (hgood : isValidObjectId good = true)
    (habsent : st.impactaction.find? (fun kv => kv.1 == good) = none) :
    attest_action st bad body now = (st, Except.error AttestError.notFound) ∧
    attest_action st bad body now = attest_action st good body now := by
  have h1 : findAction st bad = none := by
    unfold findAction
    rw [if_neg (by rw [hbad]; exact Bool.false_ne_true)]
  have h2 : findAction st good = none := by
    unfold findAction
    rw [if_pos hgood, habsent]
    rfl
  constructor
  · simp only [attest_action, h1]
  · simp only [attest_action, h1, h2]

/-- Witness for C10: a syntactically invalid id against the example
store. -/
theorem malformed_id_notFound_witness :
    isValidObjectId "nonexistent-id" = false ∧
    attest_action exStore "nonexistent-id" exBody 0 =
      (exStore, Except.error AttestError.notFound) ∧
    attest_action exStore "nonexistent-id" exBody 0 =
      attest_action exStore "ffffffffffffffffffffffff" exBody 0 :=
  ⟨by decide,
   malformed_id_notFound exStore exBody 0 "nonexistent-id" "ffffffffffffffffffffffff"
     (by decide) (by decide) (by decide)⟩

end GreenProof
